import Mathlib

/-!
Verification development for the line-oriented markdown converter in
`convert_md.py`.  The core of the program is modelled shallowly:

* `format_inline` — the four-stage regex-substitution pipeline
  (bold, italic, inline code, link) of the Python `format_inline`;
* `render_table` — the table renderer of the Python `render_table`;
* `processLine` / `processLines` / `flushEnds` / `convert` — the
  per-line scan loop of the Python `main` (the Python `out` list starts
  with a fixed HTML header constant and ends with a fixed footer; the
  model tracks the fragment list between those two constants, which is
  the only part the scan loop touches).

Strings are modelled as `List Char`; each Python regex substitution is
implemented as an explicit left-to-right scan with the exact
leftmost / shortest-match semantics of `re.sub` for the concrete
patterns that appear in the source.
-/

/-- Convert a string literal to the `List Char` representation used
throughout the development. -/
def toL (s : String) : List Char := s.toList

/-- Backtick character (spelled via its code point). -/
def btick : Char := Char.ofNat 96

/-- Apostrophe / single-quote character (spelled via its code point). -/
def squote : Char := Char.ofNat 39

/-- Whitespace characters stripped by Python's `str.strip()` for ASCII
input: space, tab, newline, carriage return, vertical tab, form feed. -/
def isPySpace (c : Char) : Bool :=
  c == ' ' || c == '\t' || c == '\n' || c == '\r' ||
  c == Char.ofNat 11 || c == Char.ofNat 12

/-- Python `s.strip()`: drop whitespace from both ends. -/
def pyStripWs (s : List Char) : List Char :=
  ((s.dropWhile isPySpace).reverse.dropWhile isPySpace).reverse

/-- Python `s.strip(d)` for a single-character argument: drop every
leading and every trailing occurrence of `d`. -/
def pyStripChar (d : Char) (s : List Char) : List Char :=
  ((s.dropWhile (fun c => c == d)).reverse.dropWhile (fun c => c == d)).reverse

/-- Python `s.startswith(p)` on the list representation. -/
def startsWithL : List Char → List Char → Bool
  | [], _ => true
  | _ :: _, [] => false
  | p :: ps, c :: cs => p == c && startsWithL ps cs

/-- Python `p in s` (substring containment). -/
def hasSubstr (pat : List Char) : List Char → Bool
  | [] => startsWithL pat []
  | c :: rest => startsWithL pat (c :: rest) || hasSubstr pat rest

/-- Python `s.split("|")`: split on every pipe, keeping empty pieces. -/
def splitPipe : List Char → List (List Char)
  | [] => [[]]
  | c :: rest =>
    if c == '|' then [] :: splitPipe rest
    else
      match splitPipe rest with
      | g :: gs => (c :: g) :: gs
      | [] => [[c]]

/-- Concatenate a list of fragments (Python `"".join`). -/
def joinL : List (List Char) → List Char
  | [] => []
  | x :: xs => x ++ joinL xs

/-- Python `html.escape` on one character (`&`, `<`, `>`, `"`, `'`). -/
def escapeChar (c : Char) : List Char :=
  if c = '&' then toL "&amp;"
  else if c = '<' then toL "&lt;"
  else if c = '>' then toL "&gt;"
  else if c = '"' then toL "&quot;"
  else if c = squote then toL "&#x27;"
  else [c]

/-- Python `html.escape(s)` (characterwise, which agrees with the
sequential `str.replace` calls because no replacement text contains a
character that a later replacement rewrites). -/
def htmlEscape (s : List Char) : List Char := joinL (s.map escapeChar)

/-! ### The inline formatter (`format_inline`)

Each Python substitution `re.sub(pat, repl, text)` scans `text` left to
right; at each position it takes the match whose non-greedy groups are
as short as possible, emits the replacement, and resumes scanning right
after the match (replacements are never rescanned by the same stage).
The four concrete patterns are encoded below with exactly those
semantics.  Each scanner carries a `Nat` fuel initialised to the input
length, which is always sufficient (every recursive call strictly
shrinks the remaining input); fuel keeps the recursion structural so
that every definition computes by kernel reduction. -/

/-- Earliest occurrence of two adjacent `*` characters: returns the
part before it and the part after it. -/
def splitOnStars : List Char → Option (List Char × List Char)
  | c1 :: c2 :: rest =>
    if c1 == '*' && c2 == '*' then some ([], rest)
    else
      match splitOnStars (c2 :: rest) with
      | some (a, b) => some (c1 :: a, b)
      | none => none
  | _ => none

/-- Earliest occurrence of the character `d`: part before / part after. -/
def splitOnChar (d : Char) : List Char → Option (List Char × List Char)
  | [] => none
  | c :: rest =>
    if c == d then some ([], rest)
    else
      match splitOnChar d rest with
      | some (a, b) => some (c :: a, b)
      | none => none

/-- Scan for `re.sub(r'\*\*(.*?)\*\*', r'<strong>\1</strong>', text)`. -/
def boldSubF : Nat → List Char → List Char
  | 0, cs => cs
  | _ + 1, [] => []
  | fuel + 1, c :: cs =>
    if c == '*' && (match cs with | c2 :: _ => c2 == '*' | [] => false) then
      match splitOnStars cs.tail with
      | some (inner, after) =>
          toL "<strong>" ++ inner ++ toL "</strong>" ++ boldSubF fuel after
      | none => c :: boldSubF fuel cs
    else c :: boldSubF fuel cs

def boldSub (cs : List Char) : List Char := boldSubF cs.length cs

/-- Scan for `re.sub(r'(?<!\*)\*(?!\*)(.*?)\*', r'<em>\1</em>', text)`.
The `prev` argument is the character just before the current position
(for the negative lookbehind). -/
def italicSubF : Nat → Option Char → List Char → List Char
  | 0, _, cs => cs
  | _ + 1, _, [] => []
  | fuel + 1, prev, c :: cs =>
    if c == '*' then
      if prev == some '*' then c :: italicSubF fuel (some c) cs
      else if (match cs with | c2 :: _ => c2 == '*' | [] => false) then
        c :: italicSubF fuel (some c) cs
      else
        match splitOnChar '*' cs with
        | some (inner, after) =>
            toL "<em>" ++ inner ++ toL "</em>" ++ italicSubF fuel (some '*') after
        | none => c :: italicSubF fuel (some c) cs
    else c :: italicSubF fuel (some c) cs

def italicSub (cs : List Char) : List Char := italicSubF cs.length none cs

/-- Scan for ``re.sub(r'`(.*?)`', r'<code>\1</code>', text)``. -/
def codeSubF : Nat → List Char → List Char
  | 0, cs => cs
  | _ + 1, [] => []
  | fuel + 1, c :: cs =>
    if c == btick then
      match splitOnChar btick cs with
      | some (inner, after) =>
          toL "<code>" ++ inner ++ toL "</code>" ++ codeSubF fuel after
      | none => c :: codeSubF fuel cs
    else c :: codeSubF fuel cs

def codeSub (cs : List Char) : List Char := codeSubF cs.length cs

/-- After an opening `[`, find the shortest label such that it is
followed by `](`, a target, and a closing `)`; returns
`(label, target, rest)`.  Mirrors the backtracking of
`\[(.*?)\]\((.*?)\)`: the label group is non-greedy, so the first
position with `](` that is followed by some `)` wins, and the target is
then everything up to the earliest `)`. -/
def matchLinkBody : List Char → Option (List Char × List Char × List Char)
  | [] => none
  | c :: rest =>
    if c == ']' then
      match rest with
      | c2 :: rest2 =>
        if c2 == '(' then
          match splitOnChar ')' rest2 with
          | some (url, after) => some ([], url, after)
          | none =>
            match matchLinkBody rest with
            | some (lab, url, after) => some (c :: lab, url, after)
            | none => none
        else
          match matchLinkBody rest with
          | some (lab, url, after) => some (c :: lab, url, after)
          | none => none
      | [] => none
    else
      match matchLinkBody rest with
      | some (lab, url, after) => some (c :: lab, url, after)
      | none => none

/-- Scan for `re.sub(r'\[(.*?)\]\((.*?)\)', r'<a href="\2">\1</a>', text)`. -/
def linkSubF : Nat → List Char → List Char
  | 0, cs => cs
  | _ + 1, [] => []
  | fuel + 1, c :: cs =>
    if c == '[' then
      match matchLinkBody cs with
      | some (lab, url, after) =>
          toL "<a href=\"" ++ url ++ toL "\">" ++ lab ++ toL "</a>" ++ linkSubF fuel after
      | none => c :: linkSubF fuel cs
    else c :: linkSubF fuel cs

def linkSub (cs : List Char) : List Char := linkSubF cs.length cs

/-- The Python `format_inline`: bold, then italic, then inline code,
then links, each substitution running on the result of the previous
one. -/
def format_inline (text : List Char) : List Char :=
  linkSub (codeSub (italicSub (boldSub text)))

example : format_inline (toL "**bold** and *italic*") =
    toL "<strong>bold</strong> and <em>italic</em>" := by decide

example : format_inline (toL "[text](url)") =
    toL "<a href=\"url\">text</a>" := by decide

/-! ### The table renderer (`render_table`) -/

/-- The cell list of a buffered table row as computed for data rows in
the Python source (`clean_cols`): trim the row, drop every leading and
trailing `|`, split on `|`, trim each piece. -/
def clean_cols (row : List Char) : List (List Char) :=
  (splitPipe (pyStripChar '|' (pyStripWs row))).map pyStripWs

/-- Header-cell loop of `render_table`: cells that are empty after
trimming are skipped (`if not c: continue`). -/
def renderHeaderCells : List (List Char) → List Char
  | [] => []
  | c :: cs =>
    (if c = [] then [] else toL "<th>" ++ format_inline c ++ toL "</th>") ++
      renderHeaderCells cs

/-- Data-cell loop of `render_table`: every cell is emitted, empty or
not. -/
def renderDataCells : List (List Char) → List Char
  | [] => []
  | c :: cs => toL "<td>" ++ format_inline c ++ toL "</td>" ++ renderDataCells cs

/-- Data-row loop of `render_table`. -/
def renderDataRows : List (List Char) → List Char
  | [] => []
  | row :: rs =>
    toL "<tr>" ++ renderDataCells (clean_cols row) ++ toL "</tr>" ++ renderDataRows rs

/-- The Python `render_table`: header row from `rows[0]`
(`strip("|")` then split then per-cell trim, empty cells skipped), an
optional delimiter second row (skipped when it contains `"---"`), and
the remaining rows as data rows. -/
def render_table (rows : List (List Char)) : List Char :=
  match rows with
  | [] => []
  | header_row :: rest =>
    let cols := (splitPipe (pyStripChar '|' header_row)).map pyStripWs
    let dataRows := match rest with
      | [] => []
      | r :: rs => if hasSubstr (toL "---") r then rs else r :: rs
    toL "<table>" ++ toL "<thead><tr>" ++ renderHeaderCells cols ++
      toL "</tr></thead>" ++ toL "<tbody>" ++ renderDataRows dataRows ++
      toL "</tbody></table>"

/-! ### The scan loop (`main`) -/

/-- The mutable parse state of the Python `main` loop.  `out` is the
list of rendered fragments appended after the fixed HTML header
constant. -/
structure MDState where
  in_code_block : Bool
  code_lang : List Char
  in_table : Bool
  in_list : Bool
  table_buffer : List (List Char)
  out : List (List Char)
deriving Repr, DecidableEq

/-- State at the top of `main`, before any line is processed. -/
def initState : MDState :=
  { in_code_block := false, code_lang := [], in_table := false,
    in_list := false, table_buffer := [], out := [] }

/-- `stripped.startswith("```")`. -/
def isFenceLine (s : List Char) : Bool := startsWithL (toL "```") s

/-- `stripped.startswith("|")`. -/
def isTableLine (s : List Char) : Bool := startsWithL (toL "|") s

/-- `stripped.startswith("- ")`. -/
def isListLine (s : List Char) : Bool := startsWithL (toL "- ") s

/-- `stripped.startswith("#")`. -/
def isHeadingLine (s : List Char) : Bool := startsWithL (toL "#") s

/-- The horizontal-rule test of the source: a `---`/`***` start guard
followed by the length-and-character-set test. -/
def isHrLine (s : List Char) : Bool :=
  (startsWithL (toL "---") s || startsWithL (toL "***") s) &&
    decide (3 ≤ s.length) && s.all (fun c => c == '-' || c == '*' || c == ' ')

/-- Run of leading `#` characters. -/
def countHashes (s : List Char) : Nat := (s.takeWhile (fun c => c == '#')).length

/-- The `<h{level}>…</h{level}>` fragment. -/
def headingFragment (level : Nat) (content : List Char) : List Char :=
  toL "<h" ++ toL (Nat.repr level) ++ toL ">" ++ format_inline content ++
    toL "</h" ++ toL (Nat.repr level) ++ toL ">"

/-- One iteration of the `for line in lines` loop of the Python `main`:
classify the line and update the parse state and output fragments. -/
def processLine (st : MDState) (line : List Char) : MDState :=
  let stripped := pyStripWs line
  if isFenceLine stripped then
    if st.in_code_block then
      { st with out := st.out ++ [toL "</code></pre>"], in_code_block := false }
    else
      let lang0 := pyStripWs (stripped.drop 3)
      let lang := if lang0 = [] then toL "java" else lang0
      { st with code_lang := lang,
                out := st.out ++
                  [toL "<pre><code class=\"language-" ++ lang ++ toL "\">"],
                in_code_block := true }
  else if st.in_code_block then
    { st with out := st.out ++ [htmlEscape line] }
  else if isTableLine stripped then
    let st1 :=
      if st.in_table then st
      else if st.table_buffer = [] then { st with in_table := true }
      else { st with out := st.out ++ [render_table st.table_buffer],
                     table_buffer := [], in_table := true }
    { st1 with table_buffer := st1.table_buffer ++ [stripped] }
  else
    let st1 :=
      if st.in_table then
        { st with out := st.out ++ [render_table st.table_buffer],
                  table_buffer := [], in_table := false }
      else st
    if isListLine stripped then
      let st2 :=
        if st1.in_list then st1
        else { st1 with out := st1.out ++ [toL "<ul>"], in_list := true }
      { st2 with out := st2.out ++
          [toL "<li>" ++ format_inline (stripped.drop 2) ++ toL "</li>"] }
    else
      let st2 :=
        if st1.in_list then { st1 with out := st1.out ++ [toL "</ul>"], in_list := false }
        else st1
      if isHeadingLine stripped then
        let level := countHashes stripped
        { st2 with out := st2.out ++
            [headingFragment level (pyStripWs (stripped.drop level))] }
      else if isHrLine stripped then
        { st2 with out := st2.out ++ [toL "<hr>"] }
      else if stripped = [] then st2
      else
        { st2 with out := st2.out ++
            [toL "<p>" ++ format_inline stripped ++ toL "</p>"] }

/-- The whole `for line in lines` loop from a given state. -/
def processLines (st : MDState) (lines : List (List Char)) : MDState :=
  lines.foldl processLine st

/-- The end-of-input flush of `main`: close a dangling code block, then
a dangling list, then a dangling table, in that order. -/
def flushEnds (st : MDState) : MDState :=
  let stA := if st.in_code_block then { st with out := st.out ++ [toL "</code></pre>"] }
             else st
  let stB := if stA.in_list then { stA with out := stA.out ++ [toL "</ul>"] }
             else stA
  if stB.in_table then { stB with out := stB.out ++ [render_table stB.table_buffer] }
  else stB

/-- Rendered fragment list for a whole document (the Python `out` minus
the fixed header and footer constants). -/
def convert (lines : List (List Char)) : List (List Char) :=
  (flushEnds (processLines initState lines)).out

example :
    convert [toL "# Title", toL "", toL "- a", toL "- b", toL "", toL "text"] =
      [toL "<h1>Title</h1>", toL "<ul>", toL "<li>a</li>", toL "<li>b</li>",
       toL "</ul>", toL "<p>text</p>"] := by decide

example :
    render_table [toL "| A | B |", toL "|---|---|", toL "| 1 | 2 |"] =
      toL "<table><thead><tr><th>A</th><th>B</th></tr></thead><tbody><tr><td>1</td><td>2</td></tr></tbody></table>" := by
  decide

/-! ### Claims -/

/-- **C6** — Inline round-trip: on the line
`**bold** and *italic* and `(backtick)`code`(backtick)` and [text](url)`
the inline formatter (bold, then italic, then code, then link) produces
a strong-emphasis span around `bold`, an emphasis span around `italic`,
a code span around `code`, and a link with destination `url` and
visible text `text`. -/
theorem c6_inline_round_trip :
    format_inline (toL "**bold** and *italic* and `code` and [text](url)") =
      toL "<strong>bold</strong> and <em>italic</em> and <code>code</code> and <a href=\"url\">text</a>" ∧
    hasSubstr (toL "<strong>bold</strong>")
      (format_inline (toL "**bold** and *italic* and `code` and [text](url)")) = true ∧
    hasSubstr (toL "<em>italic</em>")
      (format_inline (toL "**bold** and *italic* and `code` and [text](url)")) = true ∧
    hasSubstr (toL "<code>code</code>")
      (format_inline (toL "**bold** and *italic* and `code` and [text](url)")) = true ∧
    hasSubstr (toL "<a href=\"url\">text</a>")
      (format_inline (toL "**bold** and *italic* and `code` and [text](url)")) = true := by
  decide

/-- **C5** — End-of-input flush: the final flush appends, in this fixed
order, the code-block close when code mode is open, then the list close
when list mode is open, then the rendered pending table when table mode
is open, using the same closing fragments as a normal close; and an
unterminated fenced code block still yields a correctly closed code
block in the output. -/
theorem c5_end_of_input_flush :
    (∀ st : MDState,
      flushEnds st = { st with out := st.out ++
        (if st.in_code_block then [toL "</code></pre>"] else []) ++
        (if st.in_list then [toL "</ul>"] else []) ++
        (if st.in_table then [render_table st.table_buffer] else []) }) ∧
    convert [toL "```", toL "print(1)"] =
      [toL "<pre><code class=\"language-java\">", toL "print(1)", toL "</code></pre>"] := by
  constructor
  · intro st
    obtain ⟨cb, lang, tb, lst, buf, o⟩ := st
    unfold flushEnds
    cases cb <;> cases lst <;> cases tb <;> simp
  · decide

/-- **C4** — Code-block verbatim emission: while code-block mode is
open, any non-fence line is emitted as exactly one fragment, the raw
line with only HTML escaping applied; the state is otherwise unchanged,
so the line is never reclassified as a table row, list item, heading,
rule, or paragraph. -/
theorem c4_code_block_verbatim (st : MDState) (line : List Char)
    (hc : st.in_code_block = true)
    (hf : isFenceLine (pyStripWs line) = false) :
    processLine st line = { st with out := st.out ++ [htmlEscape line] } := by
  simp [processLine, hf, hc]

/-- Witness for C4: inside a code block, a line matching the table-row
pattern is still emitted verbatim (escaped only). -/
theorem c4_code_block_verbatim_witness :
    ({ initState with in_code_block := true } : MDState).in_code_block = true ∧
    isFenceLine (pyStripWs (toL "| a | b |")) = false ∧
    processLine { initState with in_code_block := true } (toL "| a | b |") =
      { initState with in_code_block := true, out := [htmlEscape (toL "| a | b |")] } := by
  refine ⟨rfl, by decide, ?_⟩
  rw [c4_code_block_verbatim _ _ rfl (by decide)]
  decide

/-- **C1 counterexample** — block-mode mutual exclusion fails: a code
fence arriving while a table is open opens code mode without flushing
the table (both modes end up open), and a table row arriving while a
list is open opens table mode without closing the list. -/
theorem c1_block_exclusion_cex :
    ((processLines initState [toL "| a |", toL "```"]).in_table = true ∧
     (processLines initState [toL "| a |", toL "```"]).in_code_block = true) ∧
    ((processLines initState [toL "- a", toL "| x |"]).in_table = true ∧
     (processLines initState [toL "- a", toL "| x |"]).in_list = true) := by
  decide

/-- **C1 (amended)** — the force-close invariant holds only for the
non-fence, non-table transitions: any line that is not a code fence and
not a table row, processed outside a code block, leaves table mode
closed afterwards, and additionally leaves list mode closed unless the
line is itself a list item. -/
theorem c1_block_exclusion_amended (st : MDState) (line : List Char)
    (hc : st.in_code_block = false)
    (hf : isFenceLine (pyStripWs line) = false)
    (ht : isTableLine (pyStripWs line) = false) :
    (processLine st line).in_table = false ∧
      (isListLine (pyStripWs line) = false → (processLine st line).in_list = false) := by
  cases hT : st.in_table <;> cases hLi : st.in_list <;>
    cases hL : isListLine (pyStripWs line) <;>
    cases hH : isHeadingLine (pyStripWs line) <;>
    cases hHr : isHrLine (pyStripWs line) <;>
    by_cases hE : pyStripWs line = [] <;>
    simp [processLine, hc, hf, ht, hT, hLi, hL, hH, hHr, hE,
      show isFenceLine [] = false from by decide,
      show isTableLine [] = false from by decide,
      show isListLine [] = false from by decide,
      show isHeadingLine [] = false from by decide,
      show isHrLine [] = false from by decide]

/-- Witness for the amended C1 theorem at a concrete paragraph line. -/
theorem c1_block_exclusion_amended_witness :
    (processLine initState (toL "x")).in_table = false ∧
      (isListLine (pyStripWs (toL "x")) = false →
        (processLine initState (toL "x")).in_list = false) :=
  c1_block_exclusion_amended initState (toL "x") rfl (by decide) (by decide)

/-- **C2 counterexample** — the line `* * *` is not matched by any
earlier rule, its trimmed form has length ≥ 3 and every character in
`{-,*,space}`, yet the renderer emits a paragraph, not a rule: the code
additionally requires the trimmed line to start with `---` or `***`. -/
theorem c2_rule_classification_cex :
    3 ≤ (toL "* * *").length ∧
    (toL "* * *").all (fun c => c == '-' || c == '*' || c == ' ') = true ∧
    pyStripWs (toL "* * *") = toL "* * *" ∧
    isFenceLine (toL "* * *") = false ∧
    isTableLine (toL "* * *") = false ∧
    isListLine (toL "* * *") = false ∧
    isHeadingLine (toL "* * *") = false ∧
    (processLine initState (toL "* * *")).out = [toL "<p><em> </em> *</p>"] := by
  decide

/-- A paragraph fragment is never the rule fragment. -/
lemma para_ne_hr (f : List Char) : toL "<p>" ++ f ++ toL "</p>" ≠ toL "<hr>" := by
  intro h
  rw [show toL "<p>" = ['<', 'p', '>'] from rfl,
      show toL "<hr>" = ['<', 'h', 'r', '>'] from rfl] at h
  simp only [List.cons_append, List.nil_append] at h
  have h1 := (List.cons.injEq _ _ _ _).mp h
  have h2 := (List.cons.injEq _ _ _ _).mp h1.2
  exact absurd h2.1 (by decide)

/-- **C2 (amended)** — for a line not matched by an earlier rule (not a
fence, table row, list item, or heading, outside a code block, with no
open table or list), the renderer emits exactly a rule fragment iff the
trimmed line starts with `---` or `***`, has length ≥ 3, and every
character is `-`, `*`, or space.  (The claim's condition omitted the
`---`/`***` start guard; `* * *` meets the character-set condition but
is rendered as a paragraph.) -/
theorem c2_rule_classification_amended (st : MDState) (line : List Char)
    (hc : st.in_code_block = false) (hT : st.in_table = false)
    (hLi : st.in_list = false)
    (hf : isFenceLine (pyStripWs line) = false)
    (ht : isTableLine (pyStripWs line) = false)
    (hL : isListLine (pyStripWs line) = false)
    (hH : isHeadingLine (pyStripWs line) = false) :
    (processLine st line).out = st.out ++ [toL "<hr>"] ↔
      ((startsWithL (toL "---") (pyStripWs line) ||
          startsWithL (toL "***") (pyStripWs line)) &&
        decide (3 ≤ (pyStripWs line).length) &&
        (pyStripWs line).all (fun c => c == '-' || c == '*' || c == ' ')) = true := by
  have hrw : ((startsWithL (toL "---") (pyStripWs line) ||
      startsWithL (toL "***") (pyStripWs line)) &&
      decide (3 ≤ (pyStripWs line).length) &&
      (pyStripWs line).all (fun c => c == '-' || c == '*' || c == ' ')) =
      isHrLine (pyStripWs line) := rfl
  rw [hrw]
  cases hHr : isHrLine (pyStripWs line)
  · by_cases hE : pyStripWs line = []
    · simp [processLine, hc, hT, hLi, hf, ht, hL, hH, hHr, hE,
        show isFenceLine [] = false from by decide,
        show isTableLine [] = false from by decide,
        show isListLine [] = false from by decide,
        show isHeadingLine [] = false from by decide,
        show isHrLine [] = false from by decide]
    · simp [processLine, hc, hT, hLi, hf, ht, hL, hH, hHr, hE]
      exact para_ne_hr (format_inline (pyStripWs line))
  · simp [processLine, hc, hT, hLi, hf, ht, hL, hH, hHr]

/-- Witness for the amended C2 theorem: `---` is rendered as a rule. -/
theorem c2_rule_classification_amended_witness :
    (processLine initState (toL "---")).out = initState.out ++ [toL "<hr>"] :=
  (c2_rule_classification_amended initState (toL "---") rfl rfl rfl
      (by decide) (by decide) (by decide) (by decide)).mpr (by decide)

/-- Modelled from the spec (claim C3's wording): strip ONE leading and
ONE trailing cell separator if present.  The code under `src/` instead
strips every leading and trailing separator (`strip("|")`); this
definition exists only to be compared against the code's behavior. -/
def stripOnePipe (s : List Char) : List Char :=
  let s1 := if startsWithL (toL "|") s then s.drop 1 else s
  if startsWithL (toL "|") s1.reverse then (s1.reverse.drop 1).reverse else s1

/-- Modelled from the spec (claim C3's wording): cell splitting by
stripping one leading and one trailing separator, splitting on the
separator, then trimming each cell. -/
def specDataCells (row : List Char) : List (List Char) :=
  (splitPipe (stripOnePipe (pyStripWs row))).map pyStripWs

/-- **C3 counterexample** — on the buffered row `||a||` the code
(strip-all-pipes) yields the single cell `a`, while the claim's
strip-one-each rule would yield three cells; the rendered table shows a
single data cell. -/
theorem c3_table_cell_splitting_cex :
    clean_cols (toL "||a||") = [toL "a"] ∧
    specDataCells (toL "||a||") = [[], toL "a", []] ∧
    ¬ clean_cols (toL "||a||") = specDataCells (toL "||a||") ∧
    render_table [toL "|h|", toL "||a||"] =
      toL "<table><thead><tr><th>h</th></tr></thead><tbody><tr><td>a</td></tr></tbody></table>" := by
  decide

lemma dw_nopipe (s : List Char) (h : startsWithL (toL "|") s = false) :
    s.dropWhile (fun c => c == '|') = s := by
  cases s with
  | nil => rfl
  | cons c cs =>
    rw [show toL "|" = ['|'] from rfl] at h
    simp [startsWithL] at h
    have h' : ¬ c = '|' := fun e => h e.symm
    simp [List.dropWhile_cons, h']

lemma dw_onepipe (t : List Char) (h : startsWithL (toL "|") t = false) :
    ('|' :: t).dropWhile (fun c => c == '|') = t := by
  rw [List.dropWhile_cons]
  simp only [beq_self_eq_true, if_true]
  exact dw_nopipe t h

lemma startsWithL_append (p : List Char) :
    ∀ l m : List Char, p.length ≤ l.length → startsWithL p (l ++ m) = startsWithL p l := by
  induction p with
  | nil => intro l m _; simp [startsWithL]
  | cons q qs ih =>
    intro l m hlen
    cases l with
    | nil => simp at hlen
    | cons c cs =>
      simp only [List.cons_append, startsWithL, List.append_eq]
      rw [ih cs m (by simpa using Nat.le_of_succ_le_succ hlen)]

lemma startsWith_pipe_destruct (u : List Char)
    (h : startsWithL (toL "|") u = true) : ∃ t, u = '|' :: t := by
  cases u with
  | nil => rw [show toL "|" = ['|'] from rfl] at h; simp [startsWithL] at h
  | cons c cs =>
    rw [show toL "|" = ['|'] from rfl] at h
    simp [startsWithL] at h
    exact ⟨cs, by rw [h]⟩

lemma not_double_tail (rest : List Char)
    (hA : startsWithL (toL "||") ('|' :: rest) = false) :
    startsWithL (toL "|") rest = false := by
  rw [show toL "||" = ['|', '|'] from rfl] at hA
  rw [show toL "|" = ['|'] from rfl]
  simp only [startsWithL, beq_self_eq_true, Bool.true_and] at hA
  cases rest with
  | nil => rfl
  | cons x xs => simpa [startsWithL] using hA

lemma not_double_reverse_tail (rest : List Char)
    (hB : startsWithL (toL "||") ('|' :: rest).reverse = false) :
    startsWithL (toL "||") rest.reverse = false := by
  cases rest with
  | nil => decide
  | cons x rs =>
    cases rs with
    | nil =>
      rw [show toL "||" = ['|', '|'] from rfl]
      simp [startsWithL]
    | cons y rs2 =>
      rw [List.reverse_cons] at hB
      rw [← startsWithL_append (toL "||") (x :: y :: rs2).reverse ['|']
        (by rw [show (toL "||").length = 2 from rfl]; simp)]
      exact hB

/-- On a string with at most one leading and one trailing `|`, Python's
`strip("|")` (strip every end pipe) agrees with the claim's
strip-one-each rule. -/
lemma stripOnePipe_eq (s : List Char)
    (hA : startsWithL (toL "||") s = false)
    (hB : startsWithL (toL "||") s.reverse = false) :
    pyStripChar '|' s = stripOnePipe s := by
  unfold pyStripChar stripOnePipe
  cases hs : startsWithL (toL "|") s with
  | false =>
    rw [dw_nopipe s hs]
    simp only [hs, Bool.false_eq_true, if_false]
    cases hs2 : startsWithL (toL "|") s.reverse with
    | false => rw [dw_nopipe _ hs2]; simp [hs2]
    | true =>
      obtain ⟨t, ht⟩ := startsWith_pipe_destruct _ hs2
      have htail : startsWithL (toL "|") t = false := not_double_tail t (ht ▸ hB)
      rw [ht, dw_onepipe t htail]
      simp
  | true =>
    obtain ⟨rest, hrest⟩ := startsWith_pipe_destruct s hs
    subst hrest
    have htail : startsWithL (toL "|") rest = false := not_double_tail rest hA
    have hC : startsWithL (toL "||") rest.reverse = false := not_double_reverse_tail rest hB
    rw [dw_onepipe rest htail]
    simp only [hs, if_true, List.drop_succ_cons, List.drop_zero]
    cases hs2 : startsWithL (toL "|") rest.reverse with
    | false => rw [dw_nopipe _ hs2]; simp [hs2]
    | true =>
      obtain ⟨t2, ht2⟩ := startsWith_pipe_destruct _ hs2
      have htail2 : startsWithL (toL "|") t2 = false := not_double_tail t2 (ht2 ▸ hC)
      rw [ht2, dw_onepipe t2 htail2]
      simp

/-- **C3 (amended)** — the rendered cells of a buffered table row are
obtained by trimming the row, stripping ALL leading and trailing
separators (not one of each), splitting on the separator, and trimming
each cell; each data row is rendered as-is with its own cell count (no
padding/truncation).  When the row carries at most one separator at
each end, this agrees with the claim's strip-one-each description. -/
theorem c3_table_cell_splitting_amended (row : List Char)
    (h1 : startsWithL (toL "||") (pyStripWs row) = false)
    (h2 : startsWithL (toL "||") (pyStripWs row).reverse = false) :
    clean_cols row = specDataCells row ∧
    (∀ rs, renderDataRows (row :: rs) =
      toL "<tr>" ++ renderDataCells (clean_cols row) ++ toL "</tr>" ++ renderDataRows rs) := by
  constructor
  · unfold clean_cols specDataCells
    rw [stripOnePipe_eq _ h1 h2]
  · intro rs; rfl

/-- Witness for the amended C3 theorem at a single-pipe-delimited row. -/
theorem c3_table_cell_splitting_amended_witness :
    startsWithL (toL "||") (pyStripWs (toL "|a|b|")) = false ∧
    clean_cols (toL "|a|b|") = specDataCells (toL "|a|b|") :=
  ⟨by decide, (c3_table_cell_splitting_amended (toL "|a|b|") (by decide) (by decide)).1⟩

lemma boldSubF_plain : ∀ (fuel : Nat) (cs : List Char),
    (∀ c ∈ cs, ¬ c = '*') → boldSubF fuel cs = cs := by
  intro fuel
  induction fuel with
  | zero => intro cs _; rfl
  | succ n ih =>
    intro cs h
    cases cs with
    | nil => rfl
    | cons c rest =>
      have hc : (c == '*') = false := by
        simpa using h c (List.mem_cons_self c rest)
      simp only [boldSubF, hc, Bool.false_and, Bool.false_eq_true, if_false]
      rw [ih rest (fun x hx => h x (List.mem_cons_of_mem c hx))]

lemma italicSubF_plain : ∀ (fuel : Nat) (prev : Option Char) (cs : List Char),
    (∀ c ∈ cs, ¬ c = '*') → italicSubF fuel prev cs = cs := by
  intro fuel
  induction fuel with
  | zero => intro prev cs _; rfl
  | succ n ih =>
    intro prev cs h
    cases cs with
    | nil => rfl
    | cons c rest =>
      have hc : (c == '*') = false := by
        simpa using h c (List.mem_cons_self c rest)
      simp only [italicSubF, hc, Bool.false_eq_true, if_false]
      rw [ih (some c) rest (fun x hx => h x (List.mem_cons_of_mem c hx))]

lemma codeSubF_plain : ∀ (fuel : Nat) (cs : List Char),
    (∀ c ∈ cs, ¬ c = btick) → codeSubF fuel cs = cs := by
  intro fuel
  induction fuel with
  | zero => intro cs _; rfl
  | succ n ih =>
    intro cs h
    cases cs with
    | nil => rfl
    | cons c rest =>
      have hc : (c == btick) = false := by
        simpa using h c (List.mem_cons_self c rest)
      simp only [codeSubF, hc, Bool.false_eq_true, if_false]
      rw [ih rest (fun x hx => h x (List.mem_cons_of_mem c hx))]

lemma linkSubF_plain : ∀ (fuel : Nat) (cs : List Char),
    (∀ c ∈ cs, ¬ c = '[') → linkSubF fuel cs = cs := by
  intro fuel
  induction fuel with
  | zero => intro cs _; rfl
  | succ n ih =>
    intro cs h
    cases cs with
    | nil => rfl
    | cons c rest =>
      have hc : (c == '[') = false := by
        simpa using h c (List.mem_cons_self c rest)
      simp only [linkSubF, hc, Bool.false_eq_true, if_false]
      rw [ih rest (fun x hx => h x (List.mem_cons_of_mem c hx))]

/-- **C7** — Idempotence of the inline formatter on plain text: a line
containing no asterisk, no backtick, and no opening bracket (so none of
the bold/italic/code/link markup can trigger) is returned unchanged. -/
theorem c7_inline_plain_identity (text : List Char)
    (h : ∀ c ∈ text, ¬ c = '*' ∧ ¬ c = btick ∧ ¬ c = '[') :
    format_inline text = text := by
  unfold format_inline boldSub italicSub codeSub linkSub
  rw [boldSubF_plain _ text (fun c hc => (h c hc).1)]
  rw [italicSubF_plain _ none text (fun c hc => (h c hc).1)]
  rw [codeSubF_plain _ text (fun c hc => (h c hc).2.1)]
  rw [linkSubF_plain _ text (fun c hc => (h c hc).2.2)]

/-- Witness for C7 at a concrete plain-text line. -/
theorem c7_inline_plain_identity_witness :
    (∀ c ∈ toL "hello, plain world.", ¬ c = '*' ∧ ¬ c = btick ∧ ¬ c = '[') ∧
    format_inline (toL "hello, plain world.") = toL "hello, plain world." :=
  ⟨by decide, c7_inline_plain_identity (toL "hello, plain world.") (by decide)⟩

lemma table_inv_step (st : MDState) (line : List Char)
    (h : st.in_table = true ↔ st.table_buffer ≠ []) :
    ((processLine st line).in_table = true ↔ (processLine st line).table_buffer ≠ []) := by
  by_cases hf : isFenceLine (pyStripWs line) = true
  · cases hcb : st.in_code_block <;> simpa [processLine, hf, hcb] using h
  · by_cases hcb : st.in_code_block = true
    · simpa [processLine, hf, hcb] using h
    · by_cases htl : isTableLine (pyStripWs line) = true
      · by_cases hT : st.in_table = true
        · simp [processLine, hf, hcb, htl, hT]
        · by_cases hB : st.table_buffer = [] <;>
            simp [processLine, hf, hcb, htl, hT, hB]
      · by_cases hT : st.in_table = true <;>
          cases hLi : st.in_list <;>
          cases hl : isListLine (pyStripWs line) <;>
          cases hh : isHeadingLine (pyStripWs line) <;>
          cases hhr : isHrLine (pyStripWs line) <;>
          by_cases hE : pyStripWs line = [] <;>
          simp_all [processLine,
            show isFenceLine [] = false from by decide,
            show isTableLine [] = false from by decide,
            show isListLine [] = false from by decide,
            show isHeadingLine [] = false from by decide,
            show isHrLine [] = false from by decide]

lemma table_inv_scan (lines : List (List Char)) :
    ∀ st : MDState, (st.in_table = true ↔ st.table_buffer ≠ []) →
      ((processLines st lines).in_table = true ↔
        (processLines st lines).table_buffer ≠ []) := by
  induction lines with
  | nil => intro st h; simpa [processLines] using h
  | cons l ls ih =>
    intro st h
    simpa [processLines, List.foldl_cons] using
      ih (processLine st l) (table_inv_step st l h)

/-- **C9** — Implicit table-mode invariant: after any number of
processed lines (from the initial state), table mode is open iff the
row buffer is non-empty; and a step that opens table mode leaves a
non-empty buffer (it appends the current row in the same step). -/
theorem c9_table_mode_buffer_invariant :
    (∀ lines, ((processLines initState lines).in_table = true ↔
      (processLines initState lines).table_buffer ≠ [])) ∧
    (∀ (st : MDState) (line : List Char), st.in_table = false →
      (processLine st line).in_table = true →
      (processLine st line).table_buffer ≠ []) := by
  constructor
  · intro lines
    exact table_inv_scan lines initState (by simp [initState])
  · intro st line hT hT'
    by_cases hf : isFenceLine (pyStripWs line) = true
    · cases hcb : st.in_code_block <;> simp_all [processLine]
    · by_cases hcb : st.in_code_block = true
      · simp_all [processLine]
      · by_cases htl : isTableLine (pyStripWs line) = true
        · by_cases hB : st.table_buffer = [] <;> simp_all [processLine]
        · cases hLi : st.in_list <;>
          cases hl : isListLine (pyStripWs line) <;>
          cases hh : isHeadingLine (pyStripWs line) <;>
          cases hhr : isHrLine (pyStripWs line) <;>
          by_cases hE : pyStripWs line = [] <;>
          simp_all [processLine,
            show isFenceLine [] = false from by decide,
            show isTableLine [] = false from by decide,
            show isListLine [] = false from by decide,
            show isHeadingLine [] = false from by decide,
            show isHrLine [] = false from by decide]

/-- Witness for C9: processing a table row from the initial state opens
table mode with a non-empty buffer. -/
theorem c9_table_mode_buffer_invariant_witness :
    (processLine initState (toL "|x|")).table_buffer ≠ [] :=
  c9_table_mode_buffer_invariant.2 initState (toL "|x|") rfl (by decide)

/-- **C8** — Parser totality: the scan step is a total function whose
output fragments only ever extend monotonically (the previous fragments
are preserved as a prefix — every line is absorbed deterministically
and nothing ever fails); a blank line with no open block contributes no
fragment at all and leaves the state untouched; and a delimiter table
row (one containing `---`) contributes no rendered row of its own. -/
theorem c8_parser_totality :
    (∀ (st : MDState) (line : List Char),
      ((processLine st line).out).take st.out.length = st.out) ∧
    (∀ (st : MDState) (line : List Char), st.in_code_block = false →
      st.in_table = false → st.in_list = false → pyStripWs line = [] →
      processLine st line = st) ∧
    (∀ (h r : List Char) (rest : List (List Char)),
      hasSubstr (toL "---") r = true →
      render_table (h :: r :: rest) =
        toL "<table>" ++ toL "<thead><tr>" ++
          renderHeaderCells ((splitPipe (pyStripChar '|' h)).map pyStripWs) ++
          toL "</tr></thead>" ++ toL "<tbody>" ++ renderDataRows rest ++
          toL "</tbody></table>") := by
  refine ⟨?_, ?_, ?_⟩
  · intro st line
    by_cases hf : isFenceLine (pyStripWs line) = true
    · cases hcb : st.in_code_block <;>
        simp [processLine, hf, hcb, List.take_left]
    · by_cases hcb : st.in_code_block = true
      · simp [processLine, hf, hcb, List.take_left]
      · by_cases htl : isTableLine (pyStripWs line) = true
        · by_cases hT : st.in_table = true
          · simp [processLine, hf, hcb, htl, hT, List.take_left]
          · by_cases hB : st.table_buffer = [] <;>
              simp [processLine, hf, hcb, htl, hT, hB, List.take_left]
        · by_cases hT : st.in_table = true <;>
            cases hLi : st.in_list <;>
            cases hl : isListLine (pyStripWs line) <;>
            cases hh : isHeadingLine (pyStripWs line) <;>
            cases hhr : isHrLine (pyStripWs line) <;>
            by_cases hE : pyStripWs line = [] <;>
            simp_all [processLine, List.append_assoc, List.take_left,
              show isFenceLine [] = false from by decide,
              show isTableLine [] = false from by decide,
              show isListLine [] = false from by decide,
              show isHeadingLine [] = false from by decide,
              show isHrLine [] = false from by decide]
  · intro st line hcb hT hLi hE
    simp [processLine, hcb, hT, hLi, hE,
      show isFenceLine [] = false from by decide,
      show isTableLine [] = false from by decide,
      show isListLine [] = false from by decide,
      show isHeadingLine [] = false from by decide,
      show isHrLine [] = false from by decide]
  · intro h r rest hdash
    simp [render_table, hdash]

/-- Witness for C8: a blank line with everything closed is absorbed
with no output, and a concrete delimiter row is skipped. -/
theorem c8_parser_totality_witness :
    processLine initState (toL "   ") = initState ∧
    render_table [toL "|h|", toL "|---|"] =
      toL "<table>" ++ toL "<thead><tr>" ++
        renderHeaderCells ((splitPipe (pyStripChar '|' (toL "|h|"))).map pyStripWs) ++
        toL "</tr></thead>" ++ toL "<tbody>" ++ renderDataRows [] ++
        toL "</tbody></table>" :=
  ⟨c8_parser_totality.2.1 initState (toL "   ") rfl rfl rfl (by decide),
   c8_parser_totality.2.2 (toL "|h|") (toL "|---|") [] (by decide)⟩

/-- **C10** — Header/data cell asymmetry: the header-cell loop skips
cells that are empty after trimming while the data-cell loop keeps
them, so a row with an empty cell yields fewer header cells than the
same row rendered as a data row (concretely `|a||b|` gives header cells
`a`, `b` but data cells `a`, empty, `b`). -/
theorem c10_header_data_cell_asymmetry :
    (∀ cols, renderHeaderCells cols =
      joinL ((cols.filter (fun c => !c.isEmpty)).map
        (fun c => toL "<th>" ++ format_inline c ++ toL "</th>"))) ∧
    (∀ cols, renderDataCells cols =
      joinL (cols.map (fun c => toL "<td>" ++ format_inline c ++ toL "</td>"))) ∧
    render_table [toL "|a||b|", toL "|a||b|"] =
      toL "<table><thead><tr><th>a</th><th>b</th></tr></thead><tbody><tr><td>a</td><td></td><td>b</td></tr></tbody></table>" := by
  refine ⟨?_, ?_, by decide⟩
  · intro cols
    induction cols with
    | nil => rfl
    | cons c cs ih =>
      cases c with
      | nil => simpa [renderHeaderCells, List.filter_cons, joinL] using ih
      | cons x xs => simp [renderHeaderCells, List.filter_cons, joinL, ih]
  · intro cols
    induction cols with
    | nil => rfl
    | cons c cs ih => simp [renderDataCells, joinL, ih]
